import Mathlib

/-!
Verification of the Quickwire code generator against its specification.

The embedding models the generator's pure core, translated from the
TypeScript source:
  * the verb classifier `detectHttpMethod` and its prefix tables
    (`CONFIG.httpMethods`),
  * the route emitter's argument-extraction strategy
    (`generateApiRoutesForFile`),
  * the generated-file marker lines and the orphan cleanup walk
    (`generateQuickwireFile`, `walkAndCleanup`),
  * the schema mapper (`parseTypeToSchema`, `splitObjectProperties`),
  * the mtime-keyed extraction cache (`getFileMtime`, `getCachedExports`,
    `setCachedExports`, `markFileChanged`, `markFileDeleted`),
  * the regeneration decision (`shouldRegenerateEverything`),
  * the runtime semantics of the emitted route handler template.

JavaScript strings are modelled as Lean `String`s; the JS string
operations used by the source (`toLowerCase`, `startsWith`, `includes`,
`trim`, `split`, `indexOf`, `endsWith` on ASCII data) are re-implemented
over `List Char` below so that every definition is executable and
kernel-evaluable.
-/

namespace Quickwire

/-! ### Character and string primitives (ASCII semantics of the JS methods) -/

/-- Characters written via code points to keep the development free of
delimiter literals: opening brace, closing brace, double quote, single
quote, backslash. -/
def braceOpenChar : Char := Char.ofNat 123

def braceCloseChar : Char := Char.ofNat 125

def dquoteChar : Char := Char.ofNat 34

def squoteChar : Char := Char.ofNat 39

def backslashChar : Char := Char.ofNat 92

/-- ASCII lower-casing of one character, as `String.prototype.toLowerCase`
acts on ASCII input. -/
def toLowerChar (c : Char) : Char :=
  if 'A' ≤ c && c ≤ 'Z' then Char.ofNat (c.toNat + 32) else c

def lowerList (s : List Char) : List Char := s.map toLowerChar

/-- JS `s.toLowerCase()` restricted to ASCII content. -/
def jsToLower (s : String) : String := ⟨lowerList s.data⟩

/-- JS `s.startsWith(pat)` on character lists. -/
def startsWithCL : List Char → List Char → Bool
  | _, [] => true
  | [], _ :: _ => false
  | c :: cs, p :: ps => c == p && startsWithCL cs ps

def jsStartsWith (s pat : String) : Bool := startsWithCL s.data pat.data

/-- JS `s.endsWith(pat)` on character lists. -/
def endsWithCL (s pat : List Char) : Bool := startsWithCL s.reverse pat.reverse

def jsEndsWith (s pat : String) : Bool := endsWithCL s.data pat.data

/-- Substring occurrence test, the semantics of JS `s.includes(pat)`. -/
def containsCL : List Char → List Char → Bool
  | _, [] => true
  | [], _ :: _ => false
  | s@(_ :: rest), pat => startsWithCL s pat || containsCL rest pat

def jsIncludes (s pat : String) : Bool := containsCL s.data pat.data

/-- Whitespace recognized by JS `trim` on the ASCII range. -/
def isJsWhitespace (c : Char) : Bool :=
  c == ' ' || c == '\t' || c == '\n' || c == '\r' ||
  c == Char.ofNat 11 || c == Char.ofNat 12

def trimCL (s : List Char) : List Char :=
  ((s.dropWhile isJsWhitespace).reverse.dropWhile isJsWhitespace).reverse

/-- JS `s.trim()` on ASCII content. -/
def jsTrim (s : String) : String := ⟨trimCL s.data⟩

/-- JS `s.split(sep)` for a one-character separator: every occurrence
splits, empty pieces are kept. -/
def splitOnCharCL (sep : Char) : List Char → List (List Char)
  | [] => [[]]
  | c :: cs =>
    let rest := splitOnCharCL sep cs
    if c == sep then [] :: rest
    else
      match rest with
      | [] => [[c]]
      | piece :: more => (c :: piece) :: more

def jsSplitOn (s : String) (sep : Char) : List String :=
  (splitOnCharCL sep s.data).map (fun l => ⟨l⟩)

def containsCharCL (s : List Char) (c : Char) : Bool := s.any (fun x => x == c)

def jsContainsChar (s : String) (c : Char) : Bool := containsCharCL s.data c

/-- Index of the first occurrence of a character, JS `s.indexOf(c)`,
`none` standing for the JS result `-1`. -/
def indexOfCL (c : Char) : List Char → Option Nat
  | [] => none
  | x :: xs =>
    if x == c then some 0
    else match indexOfCL c xs with
      | some i => some (i + 1)
      | none => none

/-! ### Verb classifier (`detectHttpMethod`, `CONFIG.httpMethods`)

Translated from `src/scripts/ast.ts` (`detectHttpMethod`) and the
configured prefix tables `CONFIG.httpMethods` in
`src/scripts/utils/utils.ts`.  `Object.entries` enumerates the tables in
declaration order: GET, POST, PUT, PATCH, DELETE. -/

def httpMethods : List (String × List String) :=
  [ ("GET",
     ["get", "fetch", "find", "list", "show", "read", "retrieve", "search",
      "query", "view", "display", "load", "check", "verify", "validate",
      "count", "exists", "has", "is", "can"]),
    ("POST",
     ["create", "add", "insert", "post", "submit", "send", "upload",
      "register", "login", "signup", "authenticate", "authorize", "process",
      "execute", "run", "perform", "handle", "trigger", "invoke", "call",
      "generate", "build", "make", "produce", "sync", "import", "export"]),
    ("PUT",
     ["update", "edit", "modify", "change", "set", "put", "replace",
      "toggle", "switch", "enable", "disable", "activate", "deactivate",
      "publish", "unpublish", "approve", "reject", "accept", "decline",
      "assign", "unassign", "move", "transfer", "migrate", "restore",
      "reset", "refresh", "renew", "reorder", "sort", "merge"]),
    ("PATCH",
     ["patch", "partial", "increment", "decrement", "append", "prepend",
      "adjust", "tweak", "fine", "tune"]),
    ("DELETE",
     ["delete", "remove", "destroy", "clear", "clean", "purge", "drop",
      "erase", "wipe", "cancel", "revoke", "withdraw", "uninstall",
      "detach", "disconnect", "unlink", "archive", "trash"]) ]

/-- The nested loop of `detectHttpMethod`: walk the tables in order and
return the method of the first table owning a matching name prefix. -/
def detectHttpMethodGo (lowerName : String) : List (String × List String) → String
  | [] => "POST"
  | (method, pfxs) :: rest =>
    if pfxs.any (fun p => jsStartsWith lowerName p) then method
    else detectHttpMethodGo lowerName rest

/-- `detectHttpMethod` from `src/scripts/ast.ts`: lower-case the function
name, scan the prefix tables in declaration order, first match wins,
default `POST`. -/
def detectHttpMethod (functionName : String) : String :=
  detectHttpMethodGo (jsToLower functionName) httpMethods

/-- The classifier as the specification words it: the first verb, in the
fixed declaration order of the tables, whose prefix list contains a
prefix the lower-cased name starts with; `POST` when nothing matches. -/
def classifyFirstMatch (functionName : String) : String :=
  match httpMethods.find? (fun t => t.2.any (fun p => jsStartsWith (jsToLower functionName) p)) with
  | some t => t.1
  | none => "POST"

theorem detectHttpMethodGo_eq_find (lowerName : String)
    (ts : List (String × List String)) :
    detectHttpMethodGo lowerName ts =
      ((ts.find? (fun t => t.2.any (fun p => jsStartsWith lowerName p))).map Prod.fst).getD "POST" := by
  induction ts with
  | nil => rfl
  | cons hd tl ih =>
    cases hd with
    | mk m ps =>
      by_cases h : ps.any (fun p => jsStartsWith lowerName p) = true
      · simp [detectHttpMethodGo, List.find?, h]
      · simp only [Bool.not_eq_true] at h
        simp [detectHttpMethodGo, List.find?, h, ih]

/-! ### Route emitter: argument-extraction strategy (`generateApiRoutesForFile`) -/

/-- One extracted parameter descriptor: declared name, declared type
text, optional marker (`ParameterDescriptor` of the data model). -/
structure Param where
  name : String
  type : String
  optional : Bool
deriving DecidableEq, Repr

/-- JS regex word characters, the classes matched between two `\b`
boundaries: `[A-Za-z0-9_]`. -/
def isWordChar (c : Char) : Bool :=
  ('a' ≤ c && c ≤ 'z') || ('A' ≤ c && c ≤ 'Z') || ('0' ≤ c && c ≤ '9') ||
  c == Char.ofNat 95

/-- Case-insensitive literal match of `pat` (given lower-case) at the head
of `s`; returns the remainder on success. -/
def eatCI : List Char → List Char → Option (List Char)
  | [], s => some s
  | _ :: _, [] => none
  | p :: ps, c :: cs => if toLowerChar c == p then eatCI ps cs else none

def boundaryBefore : Option Char → Bool
  | none => true
  | some c => !isWordChar c

def boundaryAfter : List Char → Bool
  | [] => true
  | c :: _ => !isWordChar c

/-- JS `/\bpat\b/i.test(s)` for a literal word `pat` (supplied in lower
case): some occurrence of `pat`, case-insensitively, flanked by word
boundaries. -/
def wordBoundaryTestGo (pat : List Char) : Option Char → List Char → Bool
  | prev, [] =>
    -- an empty tail can still match an empty pattern; `pat` is nonempty
    -- for every use below, so this arm only closes the recursion
    boundaryBefore prev && pat.isEmpty
  | prev, c :: cs =>
    (boundaryBefore prev &&
      (match eatCI pat (c :: cs) with
       | some after => boundaryAfter after
       | none => false)) ||
    wordBoundaryTestGo pat (some c) cs

def wordBoundaryTest (pat s : String) : Bool :=
  wordBoundaryTestGo pat.data none s.data

/-- The file-parameter predicate of `generateApiRoutesForFile` (the
`fileParams` filter): the lower-cased type text equals or contains one of
the binary/file/multipart markers, or matches a case-insensitive
word-boundary regex for one of them. -/
def typeStringHasFile (typeStr : String) : Bool :=
  let ty := jsToLower typeStr
  ty == "file" || ty == "file[]" || ty == "blob" || ty == "blob[]" ||
  ty == "formdata" ||
  jsIncludes ty "file" || jsIncludes ty "blob" || jsIncludes ty "formdata" ||
  wordBoundaryTest "file" typeStr || wordBoundaryTest "blob" typeStr ||
  wordBoundaryTest "formdata" typeStr

/-- The three argument-extraction strategies a generated handler can use. -/
inductive ArgStrategy where
  | queryString
  | multipartForm
  | jsonBody
deriving DecidableEq, Repr

/-- The strategy choice of `generateApiRoutesForFile`: `fileParams` is the
sub-list of parameters whose type text matches the file predicate; then
GET/DELETE handlers read the query string, handlers with a non-empty
`fileParams` parse multipart form data, and all others parse a JSON
body. -/
def chooseArgStrategy (method : String) (params : List Param) : ArgStrategy :=
  let fileParams := params.filter (fun p => typeStringHasFile p.type)
  if method == "GET" || method == "DELETE" then ArgStrategy.queryString
  else if fileParams.length > 0 then ArgStrategy.multipartForm
  else ArgStrategy.jsonBody

/-- In the query-string branch the generator emits one
`searchParams.get("<name>")` read per parameter; the keys read are
exactly the parameter names, in order. -/
def queryStringKeys (params : List Param) : List String :=
  params.map (fun p => p.name)

/-! ### Generated file contents: marker lines and templates

`generateQuickwireFile` builds the client module as a `lines` array whose
first entries are fixed header comments; `generateApiRoutesForFile`
builds each route-handler module from the `handlerCode` template.  Both
are modelled here as line lists.  Brace, quote and apostrophe characters
inside the template text are written with `\x` escapes. -/

/-- The fixed marker comment text that orphan cleanup and corruption
detection look for. -/
def markerComment : String := "Auto-generated by Quickwire"

/-- The fixed header lines of a generated client module (the start of the
`lines` array in `generateQuickwireFile`). -/
def quickwireFileHeader (relativePath generatedAt : String) : List String :=
  ["// Auto-generated by Quickwire",
   "// Do not edit manually - changes will be overwritten",
   "// Generated from: " ++ relativePath,
   "// Generated at: " ++ generatedAt,
   "",
   "type UnwrapPromise<T> = T extends Promise<infer U> ? U : T;",
   ""]

/-- A full generated client module: the fixed header followed by the
import/type/function lines (abstracted as `rest`; no branch of the
generator removes or edits the header lines already pushed). -/
def quickwireFileLines (relativePath generatedAt : String)
    (rest : List String) : List String :=
  quickwireFileHeader relativePath generatedAt ++ rest

/-- The `handlerCode` template of `generateApiRoutesForFile`, as the list
of lines it emits: imports, the exported `METHOD(req)` function, the
parameter-handling block, the invocation, success serialization, and the
catch block answering status 500 with an error body. -/
def apiHandlerLines (funcName relPathNoExt method : String)
    (parameterHandling : List String) (functionCall : String) : List String :=
  ["import \x7b " ++ funcName ++ " \x7d from \"@/backend/" ++ relPathNoExt ++ "\";",
   "import \x7b NextResponse \x7d from \"next/server\";",
   "",
   "export async function " ++ method ++ "(req: Request) \x7b",
   "  try \x7b"] ++ parameterHandling ++
  ["    const result = " ++ functionCall ++ ";",
   "    return NextResponse.json(result ?? null);",
   "  \x7d catch (error) \x7b",
   "    console.error(\"API Error:\", error);",
   "    const errorMessage = error instanceof Error ? error.message : \"Internal server error\";",
   "    return NextResponse.json(",
   "      \x7b error: errorMessage \x7d,",
   "      \x7b status: 500 \x7d",
   "    );",
   "  \x7d",
   "\x7d"]

/-- The JSON-body `parameterHandling` block emitted for verbs with a body
and no file-typed parameter. -/
def jsonBodyParameterHandling : List String :=
  ["  let body: any;",
   "  try \x7b",
   "    const contentType = req.headers.get(\x27content-type\x27);",
   "    if (contentType && contentType.includes(\x27application/json\x27)) \x7b",
   "      body = await req.json();",
   "    \x7d else \x7b",
   "      const textBody = await req.text();",
   "      body = textBody ? JSON.parse(textBody) : \x7b\x7d;",
   "    \x7d",
   "  \x7d catch (error) \x7b",
   "    body = \x7b\x7d;",
   "  \x7d"]

/-- A file (or file content) carries the marker when some line contains
the marker text as a substring; this is the `content.includes(...)` test
of `walkAndCleanup` read line-wise (the marker holds no newline). -/
def containsMarker (lines : List String) : Bool :=
  lines.any (fun l => jsIncludes l markerComment)

theorem mem_of_startsWithCL {s pat : List Char} {c : Char}
    (h : startsWithCL s pat = true) (hc : c ∈ pat) : c ∈ s := by
  induction pat generalizing s with
  | nil => cases hc
  | cons p ps ih =>
    cases s with
    | nil => simp [startsWithCL] at h
    | cons x xs =>
      simp only [startsWithCL, Bool.and_eq_true, beq_iff_eq] at h
      rcases List.mem_cons.mp hc with rfl | hmem
      · exact List.mem_cons.mpr (Or.inl h.1.symm)
      · exact List.mem_cons.mpr (Or.inr (ih h.2 hmem))

theorem mem_of_containsCL {s pat : List Char} {c : Char}
    (h : containsCL s pat = true) (hc : c ∈ pat) : c ∈ s := by
  induction s with
  | nil =>
    cases pat with
    | nil => cases hc
    | cons p ps => simp [containsCL] at h
  | cons x xs ih =>
    cases pat with
    | nil => cases hc
    | cons p ps =>
      simp only [containsCL, Bool.or_eq_true] at h
      rcases h with h | h
      · exact mem_of_startsWithCL h hc
      · exact List.mem_cons.mpr (Or.inr (ih h))

/-- A string without the character `Q` cannot contain the marker text. -/
theorem jsIncludes_marker_eq_false_of_noQ {s : String}
    (h : 'Q' ∉ s.data) : jsIncludes s markerComment = false := by
  by_contra hcon
  simp only [Bool.not_eq_false] at hcon
  exact h (mem_of_containsCL hcon (by decide))

/-! ### Orphan cleanup (`cleanupOrphanedFiles` / `walkAndCleanup`)

The directory walk is flattened to the list of files it visits; per file,
`walkAndCleanup` removes exactly the `.ts`/`.js` files that are absent
from the tracked `generatedFiles` map and whose content contains the
marker comment. -/

/-- A file in the output tree: its absolute path and its content, split
into lines. -/
structure FsFile where
  path : String
  contentLines : List String
deriving DecidableEq, Repr

def isTsOrJs (p : String) : Bool := jsEndsWith p ".ts" || jsEndsWith p ".js"

/-- The removal test of `walkAndCleanup` for one visited file: a
TypeScript/JavaScript file not present in the tracked `generatedFiles`
map whose content contains the generator's marker. -/
def shouldRemoveOnCleanup (tracked : List String) (f : FsFile) : Bool :=
  isTsOrJs f.path && !(tracked.contains f.path) && containsMarker f.contentLines

/-- `walkAndCleanup` over the flattened file list: the surviving files
after the cleanup pass. -/
def walkAndCleanup (tracked : List String) (files : List FsFile) : List FsFile :=
  files.filter (fun f => !shouldRemoveOnCleanup tracked f)

/-! ### Schema mapper (`parseTypeToSchema`, `splitObjectProperties`)

The mapper converts a textual type expression to a schema.  The JSON
shapes the source returns are modelled as a closed inductive: the
`\x7b type: name \x7d` primitives, `\x7b\x7d` (any/unknown), `null`
(void), the `File`/`Blob` binary-string shape, the bare
`\x7b type: "object" \x7d` returned for `FormData`, arrays, `oneOf`
unions, object schemas with a `required` list (an empty list standing for
the omitted `required` field), and the `Custom type: ...` fallback.  The
source's recursion is modelled with an explicit fuel argument; every
recursive call strictly shrinks the text, so any fuel at least the input
length reproduces the source's behaviour. -/

inductive Schema where
  | primitive (name : String)
  | anySchema
  | nullSchema
  | binaryString
  | plainObject
  | arr (items : Schema)
  | oneOf (variants : List Schema)
  | obj (properties : List (String × Schema)) (required : List String)
  | custom (typeText : String)

def braceOpenStr : String := ⟨[braceOpenChar]⟩

def braceCloseStr : String := ⟨[braceCloseChar]⟩

/-- Schema-shape discriminators used to state the claims. -/
def isUnionSchema : Schema → Bool
  | Schema.oneOf _ => true
  | _ => false

def isObjectSchema : Schema → Bool
  | Schema.obj _ _ => true
  | _ => false

/-- The JS regex `^Array<(.+)>$`: the inner text when the whole string is
an `Array<...>` wrapper with a non-empty, newline-free argument. -/
def arrayGenericInner (t : String) : Option String :=
  let inner : List Char := (t.data.drop 6).dropLast
  if jsStartsWith t "Array<" && jsEndsWith t ">" && !inner.isEmpty &&
      !containsCharCL inner '\n' then
    some ⟨inner⟩
  else none

/-- The JS regex `^Promise<(.+)>$`, analogously. -/
def promiseInner (t : String) : Option String :=
  let inner : List Char := (t.data.drop 8).dropLast
  if jsStartsWith t "Promise<" && jsEndsWith t ">" && !inner.isEmpty &&
      !containsCharCL inner '\n' then
    some ⟨inner⟩
  else none

/-- The character loop of `splitObjectProperties`: split the object body
on `;`/`,` at brace depth zero, skipping separators inside quoted
strings; each completed piece is trimmed and dropped when empty.
`prev` is the previous raw character (`content[i-1]`), used for the
escaped-quote test. -/
def splitObjectPropertiesGo :
    List Char → Option Char → List Char → Int → Bool → Char →
    List (List Char) → List (List Char)
  | [], _, current, _, _, _, props =>
    if (trimCL current).isEmpty then props else props ++ [trimCL current]
  | c :: cs, prev, current, braceCount, inString, stringChar, props =>
    if !inString && (c == dquoteChar || c == squoteChar) then
      splitObjectPropertiesGo cs (some c) (current ++ [c]) braceCount true c props
    else if inString && c == stringChar && prev != some backslashChar then
      splitObjectPropertiesGo cs (some c) (current ++ [c]) braceCount false stringChar props
    else if !inString then
      if c == braceOpenChar then
        splitObjectPropertiesGo cs (some c) (current ++ [c]) (braceCount + 1) inString stringChar props
      else if c == braceCloseChar then
        splitObjectPropertiesGo cs (some c) (current ++ [c]) (braceCount - 1) inString stringChar props
      else if (c == ';' || c == ',') && braceCount == 0 then
        splitObjectPropertiesGo cs (some c) [] braceCount inString stringChar
          (if (trimCL current).isEmpty then props else props ++ [trimCL current])
      else
        splitObjectPropertiesGo cs (some c) (current ++ [c]) braceCount inString stringChar props
    else
      splitObjectPropertiesGo cs (some c) (current ++ [c]) braceCount inString stringChar props

def splitObjectProperties (content : String) : List String :=
  (splitObjectPropertiesGo content.data none [] 0 false (Char.ofNat 0) []).map
    (fun l => ⟨l⟩)

/-- One `key: type` (or `key?: type`) pair of an object body: the key,
its optional marker, and the value type text, mirroring the
`prop.indexOf(":")` handling; `none` when the first colon is absent or at
index zero (the source skips such pieces). -/
def parsePropKV (prop : String) : Option (String × Bool × String) :=
  match indexOfCL ':' prop.data with
  | some i =>
    if i > 0 then
      let rawKey := jsTrim ⟨prop.data.take i⟩
      let isOpt := jsEndsWith rawKey "?"
      let key := if isOpt then jsTrim ⟨rawKey.data.dropLast⟩ else rawKey
      some (key, isOpt, jsTrim ⟨prop.data.drop (i + 1)⟩)
    else none
  | none => none

/-- JS object-property insertion: a repeated key overwrites in place,
otherwise the pair is appended. -/
def upsertProp : List (String × Schema) → String → Schema → List (String × Schema)
  | [], k, v => [(k, v)]
  | (k0, v0) :: rest, k, v =>
    if k0 == k then (k0, v) :: rest else (k0, v0) :: upsertProp rest k v

/-- `parseTypeToSchema` from the generator, fuelled: trim; match the
primitive keywords, `File`/`Blob`/`FormData`; strip `[]` / `Array<...>` /
`Promise<...>` wrappers recursively; split on every `|` into a `oneOf`;
parse a brace-delimited body into an object schema via
`splitObjectProperties`; otherwise fall back to `Custom type: ...`. -/
def parseTypeToSchema : Nat → String → Schema
  | 0, typeStr => Schema.custom ("Custom type: " ++ jsTrim typeStr)
  | fuel + 1, typeStr =>
    let type := jsTrim typeStr
    if type == "string" then Schema.primitive "string"
    else if type == "number" then Schema.primitive "number"
    else if type == "boolean" then Schema.primitive "boolean"
    else if type == "any" then Schema.anySchema
    else if type == "unknown" then Schema.anySchema
    else if type == "void" then Schema.nullSchema
    else if type == "File" then Schema.binaryString
    else if type == "Blob" then Schema.binaryString
    else if type == "FormData" then Schema.plainObject
    else if jsEndsWith type "[]" then
      Schema.arr (parseTypeToSchema fuel ⟨type.data.dropLast.dropLast⟩)
    else
      match arrayGenericInner type with
      | some inner => Schema.arr (parseTypeToSchema fuel inner)
      | none =>
        match promiseInner type with
        | some inner => parseTypeToSchema fuel inner
        | none =>
          if jsContainsChar type '|' then
            Schema.oneOf (((jsSplitOn type '|').map jsTrim).map
              (fun t => parseTypeToSchema fuel t))
          else if jsStartsWith type braceOpenStr && jsEndsWith type braceCloseStr then
            -- object branch: strip the braces, trim, split the body into
            -- properties, fold each pair into the property map and the
            -- required list (non-optional keys, in order)
            let content := jsTrim ⟨(type.data.drop 1).dropLast⟩
            if content == "" then Schema.obj [] []
            else
              let pairs := (splitObjectProperties content).filterMap parsePropKV
              Schema.obj
                (pairs.foldl
                  (fun ps kv => upsertProp ps kv.1 (parseTypeToSchema fuel kv.2.2)) [])
                (pairs.foldl (fun rs kv => if kv.2.1 then rs else rs ++ [kv.1]) [])
          else Schema.custom ("Custom type: " ++ type)

/-! ### Incremental cache (`src/scripts/cache.ts`, `markFileChanged`,
`markFileDeleted`)

The filesystem is abstracted as `stat : String → Option Nat`, the
mtime-in-milliseconds of a path when `fs.statSync` succeeds; the cache is
a key-unique association list with JS `Map` get/set/delete semantics. -/

structure ExportedFunction where
  name : String
  type : String
  parameters : List Param
  returnType : Option String
  isAsync : Bool
  httpMethod : Option String
deriving DecidableEq, Repr

structure ExportedType where
  name : String
  type : String
  declaration : String
deriving DecidableEq, Repr

/-- The unit of extraction for one source file. -/
structure ModuleExports where
  functions : List ExportedFunction
  types : List ExportedType
  imports : List String
deriving DecidableEq, Repr

structure CacheEntry where
  mtime : Nat
  exports : ModuleExports
deriving DecidableEq, Repr

def mapGet (m : List (String × CacheEntry)) (k : String) : Option CacheEntry :=
  (m.find? (fun kv => kv.1 == k)).map Prod.snd

def mapSet : List (String × CacheEntry) → String → CacheEntry →
    List (String × CacheEntry)
  | [], k, v => [(k, v)]
  | (k0, v0) :: rest, k, v =>
    if k0 == k then (k0, v) :: rest else (k0, v0) :: mapSet rest k v

def mapDelete (m : List (String × CacheEntry)) (k : String) :
    List (String × CacheEntry) :=
  m.filter (fun kv => !(kv.1 == k))

/-- `getFileMtime`: `fs.statSync(filePath).mtimeMs`, with `0` returned
when the stat call throws. -/
def getFileMtime (stat : String → Option Nat) (filePath : String) : Nat :=
  (stat filePath).getD 0

/-- `getCachedExports`: a hit exactly when an entry exists and its
recorded mtime equals the file's current mtime. -/
def getCachedExports (stat : String → Option Nat)
    (fileCache : List (String × CacheEntry)) (filePath : String) :
    Option ModuleExports :=
  let mtime := getFileMtime stat filePath
  match mapGet fileCache filePath with
  | some cached => if cached.mtime == mtime then some cached.exports else none
  | none => none

/-- `setCachedExports`: store the exports against the file's current
mtime. -/
def setCachedExports (stat : String → Option Nat)
    (fileCache : List (String × CacheEntry)) (filePath : String)
    (exports : ModuleExports) : List (String × CacheEntry) :=
  mapSet fileCache filePath ⟨getFileMtime stat filePath, exports⟩

/-- The watcher-visible bookkeeping state touched by the change/delete
notifications. -/
structure WatcherState where
  changedFiles : List String
  deletedFiles : List String
  fileCache : List (String × CacheEntry)
deriving Repr

/-- JS `Set.add`. -/
def addUnique (l : List String) (x : String) : List String :=
  if l.contains x then l else l ++ [x]

/-- JS `Set.delete`. -/
def removeAll (l : List String) (x : String) : List String :=
  l.filter (fun y => !(y == x))

/-- `markFileChanged`: record the dirty file, evict its cache entry
unconditionally, and unmark a pending deletion. -/
def markFileChanged (st : WatcherState) (filePath : String) : WatcherState :=
  { changedFiles := addUnique st.changedFiles filePath,
    fileCache := mapDelete st.fileCache filePath,
    deletedFiles := removeAll st.deletedFiles filePath }

/-- `markFileDeleted`: record the deletion, unmark any pending change,
and evict the cache entry unconditionally. -/
def markFileDeleted (st : WatcherState) (filePath : String) : WatcherState :=
  { deletedFiles := addUnique st.deletedFiles filePath,
    changedFiles := removeAll st.changedFiles filePath,
    fileCache := mapDelete st.fileCache filePath }

theorem mapGet_mapSet_self (m : List (String × CacheEntry)) (k : String)
    (v : CacheEntry) : mapGet (mapSet m k v) k = some v := by
  induction m with
  | nil => simp [mapGet, mapSet, List.find?]
  | cons kv rest ih =>
    cases kv with
    | mk k0 v0 =>
      by_cases h : k0 = k
      · subst h
        simp [mapGet, mapSet, List.find?]
      · have hb : (k0 == k) = false := beq_eq_false_iff_ne.mpr h
        simp only [mapSet, hb, if_false]
        simp only [mapGet, List.find?, hb] at ih ⊢
        exact ih

theorem mapGet_mapDelete_self (m : List (String × CacheEntry)) (k : String) :
    mapGet (mapDelete m k) k = none := by
  induction m with
  | nil => rfl
  | cons kv rest ih =>
    cases kv with
    | mk k0 v0 =>
      by_cases h : k0 = k
      · subst h
        simpa [mapDelete] using ih
      · have hb : (k0 == k) = false := beq_eq_false_iff_ne.mpr h
        simp only [mapDelete, List.filter, hb, Bool.not_false] at ih ⊢
        simp only [mapGet, List.find?, hb]
        simp only [mapGet, mapDelete] at ih
        exact ih

/-! ### Regeneration decision (`shouldRegenerateEverything`)

The inputs the decision reads, gathered into one record: the clock, the
time of the last full scan, the sizes of the `changedFiles` and
`deletedFiles` sets and of the cache, and the configured
`cacheExpiryMs` / `maxFilesToProcess` limits.  The JS comparison
`changedFiles.size > maxFilesToProcess * 0.5` is rendered over naturals
as `maxFilesToProcess < 2 * changedCount`, which agrees with it at every
integer input. -/

structure RegenInput where
  now : Nat
  lastFullScan : Nat
  changedCount : Nat
  deletedCount : Nat
  cacheSize : Nat
  cacheExpiryMs : Nat
  maxFilesToProcess : Nat
deriving DecidableEq, Repr

/-- `shouldRegenerateEverything` from the orchestrator: any pending
change or deletion, an expired staleness window, or a dirty count above
half the processing cap triggers a full regeneration. -/
def shouldRegenerateEverything (i : RegenInput) : Bool :=
  let hasChanges := (i.changedCount != 0) || (i.deletedCount != 0)
  let cacheExpired := Nat.blt i.cacheExpiryMs (i.now - i.lastFullScan)
  let tooManyChanges := Nat.blt i.maxFilesToProcess (2 * i.changedCount)
  hasChanges || cacheExpired || tooManyChanges

/-- The trigger rule as the claim words it: empty cache, expired
staleness window, or dirty count above half the cap — and nothing
else. -/
def claimedRegenRule (i : RegenInput) : Bool :=
  (i.cacheSize == 0) || Nat.blt i.cacheExpiryMs (i.now - i.lastFullScan) ||
  Nat.blt i.maxFilesToProcess (2 * i.changedCount)

/-! ### Runtime semantics of the emitted handler (the `handlerCode` template)

The generated handler wraps the entire body in `try/catch`: the catch arm
serializes an object with an `error` field and status 500, using the
thrown `Error`'s message or the fixed fallback text; the success arm
serializes `result ?? null` with the default status 200. -/

/-- A JavaScript value as the handler observes it. -/
inductive JsValue where
  | undef
  | nullv
  | boolean (b : Bool)
  | str (s : String)
  | num (n : Int)
  | obj (fields : List (String × JsValue))

/-- A thrown JS value: an `Error` object carrying a message, or any
non-`Error` value (for which `error instanceof Error` is false). -/
inductive ThrownValue where
  | errorObj (message : String)
  | nonError (v : JsValue)

/-- The outcome of invoking the wrapped backend function (after `await`
for async functions): a returned value or a thrown value. -/
def CallOutcome := Except ThrownValue JsValue

structure HandlerResponse where
  body : JsValue
  status : Nat

/-- JS `result ?? null`: `null` and `undefined` collapse to `null`. -/
def nullishToNull (v : JsValue) : JsValue :=
  match v with
  | JsValue.undef => JsValue.nullv
  | JsValue.nullv => JsValue.nullv
  | v => v

/-- The message serialized by the catch arm:
`error instanceof Error ? error.message : "Internal server error"`. -/
def caughtErrorMessage : ThrownValue → String
  | ThrownValue.errorObj m => m
  | ThrownValue.nonError _ => "Internal server error"

/-- The response produced by the emitted handler for one invocation, per
the fixed `handlerCode` template (`apiHandlerLines`): success serializes
`result ?? null` (status 200), any thrown value is caught and answered
with `\x7b error: message \x7d` at status 500. -/
def runGeneratedHandler (call : CallOutcome) : HandlerResponse :=
  match call with
  | Except.ok v => ⟨nullishToNull v, 200⟩
  | Except.error e => ⟨JsValue.obj [("error", JsValue.str (caughtErrorMessage e))], 500⟩

end Quickwire

namespace Quickwire

/-- C1: For every function name, the verb classifier lower-cases the name
and returns the first verb, with the tables checked in the fixed
declaration order GET, POST, PUT, PATCH, DELETE, whose configured prefix
list contains a prefix that the lower-cased name starts with, returning
POST when no prefix in any table matches; under the default tables,
classify("getUser") = GET, classify("createUser") = POST,
classify("updateUser") = PUT, and classify("patchUser") = PATCH. -/
theorem claim_C1_verb_classifier :
    (∀ name : String, detectHttpMethod name = classifyFirstMatch name) ∧
    detectHttpMethod "getUser" = "GET" ∧
    detectHttpMethod "createUser" = "POST" ∧
    detectHttpMethod "updateUser" = "PUT" ∧
    detectHttpMethod "patchUser" = "PATCH" := by
  refine ⟨fun name => ?_, by decide, by decide, by decide, by decide⟩
  rw [detectHttpMethod, classifyFirstMatch, detectHttpMethodGo_eq_find]
  cases httpMethods.find? (fun t => t.2.any (fun p => jsStartsWith (jsToLower name) p)) <;> rfl

/-- C2: the generated route handler's argument-extraction strategy is
chosen by verb and parameter shape: GET/DELETE handlers read each
parameter from the query string by the parameter's own name; otherwise a
parameter whose type text matches a binary/file/multipart marker forces a
multipart form body; otherwise the handler parses the body as JSON. -/
theorem claim_C2_extraction_strategy (method : String) (params : List Param) :
    (method = "GET" ∨ method = "DELETE" →
      chooseArgStrategy method params = ArgStrategy.queryString ∧
      queryStringKeys params = params.map (fun p => p.name)) ∧
    (method ≠ "GET" → method ≠ "DELETE" →
      (∃ p ∈ params, typeStringHasFile p.type = true) →
      chooseArgStrategy method params = ArgStrategy.multipartForm) ∧
    (method ≠ "GET" → method ≠ "DELETE" →
      (∀ p ∈ params, typeStringHasFile p.type = false) →
      chooseArgStrategy method params = ArgStrategy.jsonBody) := by
  refine ⟨?_, ?_, ?_⟩
  · rintro (rfl | rfl) <;> exact ⟨rfl, rfl⟩
  · intro hg hd ⟨p, hp, hfile⟩
    have hm2 : (method == "GET" || method == "DELETE") = false := by
      simp [hg, hd]
    have hlen : 0 < (params.filter (fun p => typeStringHasFile p.type)).length := by
      have : p ∈ params.filter (fun p => typeStringHasFile p.type) :=
        List.mem_filter.mpr ⟨hp, hfile⟩
      exact List.length_pos.mpr (fun hnil => by simp [hnil] at this)
    simp [chooseArgStrategy, hm2, hlen]
  · intro hg hd hall
    have hm : (method == "GET" || method == "DELETE") = false := by
      simp [hg, hd]
    have hlen : (params.filter (fun p => typeStringHasFile p.type)).length = 0 := by
      rw [List.length_eq_zero]
      rw [List.filter_eq_nil_iff]
      intro p hp
      simp [hall p hp]
    simp [chooseArgStrategy, hm, hlen]

/-- Witness for C2: a POST endpoint with one File-typed parameter uses the
multipart strategy, and the same shape under GET reads the query
string. -/
theorem claim_C2_extraction_strategy_witness :
    chooseArgStrategy "POST" [⟨"doc", "File", false⟩] = ArgStrategy.multipartForm ∧
    chooseArgStrategy "POST" [⟨"id", "string", false⟩] = ArgStrategy.jsonBody ∧
    chooseArgStrategy "GET" [⟨"id", "string", false⟩] = ArgStrategy.queryString := by
  refine ⟨?_, ?_, ?_⟩
  · exact (claim_C2_extraction_strategy "POST" [⟨"doc", "File", false⟩]).2.1
      (by decide) (by decide) ⟨⟨"doc", "File", false⟩, by decide, by decide⟩
  · exact (claim_C2_extraction_strategy "POST" [⟨"id", "string", false⟩]).2.2
      (by decide) (by decide) (by decide)
  · exact ((claim_C2_extraction_strategy "GET" [⟨"id", "string", false⟩]).1
      (Or.inl rfl)).1

theorem noQ_append {a b : String} (ha : 'Q' ∉ a.data) (hb : 'Q' ∉ b.data) :
    'Q' ∉ (a ++ b).data := by
  rw [String.data_append]
  intro h
  rcases List.mem_append.mp h with h | h
  · exact ha h
  · exact hb h

/-- C3 counterexample: the route-handler module the generator writes for
an exported `createUser(data: \x7b name: string \x7d)` (JSON-body branch)
does not contain the marker comment anywhere, refuting the claim that
every generated file carries it. -/
theorem claim_C3_counterexample :
    containsMarker (apiHandlerLines "createUser" "user" "POST"
      jsonBodyParameterHandling "await createUser(body)") = false := by
  decide

/-- C3 amended: among the files the generator writes, the client modules
always contain the fixed marker comment (it is the first header line),
while the route-handler modules never contain it: the `handlerCode`
template has no marker line, and no inserted fragment of a handler
(function name, module path, verb, call expression, parameter-handling
block) can produce it as long as the fragments avoid the letter `Q` of
"Quickwire", which TypeScript identifiers, verbs and the emitted
parameter-handling blocks do. -/
theorem claim_C3_amended :
    (∀ (rel t : String) (rest : List String),
      containsMarker (quickwireFileLines rel t rest) = true) ∧
    (∀ (funcName rel method call : String) (ph : List String),
      'Q' ∉ funcName.data → 'Q' ∉ rel.data → 'Q' ∉ method.data →
      'Q' ∉ call.data → (∀ l ∈ ph, 'Q' ∉ l.data) →
      containsMarker (apiHandlerLines funcName rel method ph call) = false) := by
  constructor
  · intro rel t rest
    have h1 : jsIncludes "// Auto-generated by Quickwire" markerComment = true := by
      decide
    simp [containsMarker, quickwireFileLines, quickwireFileHeader, h1]
  · intro funcName rel method call ph hf hr hm hc hph
    rw [containsMarker, List.any_eq_false]
    intro l hl
    rw [Bool.not_eq_true]
    simp only [apiHandlerLines, List.mem_append, List.mem_cons,
      List.not_mem_nil, or_false] at hl
    rcases hl with ((h | h | h | h | h) | hmem) |
      (h | h | h | h | h | h | h | h | h | h | h)
    · subst h
      exact jsIncludes_marker_eq_false_of_noQ
        (noQ_append (noQ_append (noQ_append (noQ_append (by decide) hf) (by decide)) hr)
          (by decide))
    · subst h; decide
    · subst h; decide
    · subst h
      exact jsIncludes_marker_eq_false_of_noQ
        (noQ_append (noQ_append (by decide) hm) (by decide))
    · subst h; decide
    · exact jsIncludes_marker_eq_false_of_noQ (hph l hmem)
    · subst h
      exact jsIncludes_marker_eq_false_of_noQ
        (noQ_append (noQ_append (by decide) hc) (by decide))
    · subst h; decide
    · subst h; decide
    · subst h; decide
    · subst h; decide
    · subst h; decide
    · subst h; decide
    · subst h; decide
    · subst h; decide
    · subst h; decide
    · subst h; decide

/-- Witness for the amended C3: for the concrete `createUser` handler the
fragment hypotheses hold and the handler lacks the marker, while the
client module for the same source module carries it. -/
theorem claim_C3_amended_witness :
    containsMarker (quickwireFileLines "user.ts" "2024-01-01T00:00:00.000Z"
      ["export const createUser = () => 0;"]) = true ∧
    containsMarker (apiHandlerLines "createUser" "user" "POST"
      jsonBodyParameterHandling "await createUser(body)") = false := by
  constructor
  · exact claim_C3_amended.1 "user.ts" "2024-01-01T00:00:00.000Z"
      ["export const createUser = () => 0;"]
  · exact claim_C3_amended.2 "createUser" "user" "POST" "await createUser(body)"
      jsonBodyParameterHandling (by decide) (by decide) (by decide) (by decide)
      (by decide)

/-- C4: after the orphan-cleanup walk, every `.ts`/`.js` file under the
output directories that contains the generator's marker comment but is
not in the tracked `generatedFiles` map has been deleted, and every file
that does not contain the marker comment is left untouched. -/
theorem claim_C4_orphan_cleanup (tracked : List String) (files : List FsFile)
    (f : FsFile) (hmem : f ∈ files) :
    (isTsOrJs f.path = true → tracked.contains f.path = false →
      containsMarker f.contentLines = true →
      f ∉ walkAndCleanup tracked files) ∧
    (containsMarker f.contentLines = false →
      f ∈ walkAndCleanup tracked files) := by
  constructor
  · intro hext htr hmarker hin
    have := (List.mem_filter.mp hin).2
    rw [shouldRemoveOnCleanup, hext, htr, hmarker] at this
    simp at this
  · intro hmarker
    refine List.mem_filter.mpr ⟨hmem, ?_⟩
    rw [shouldRemoveOnCleanup, hmarker]
    simp

/-- Witness for C4: a planted marker-bearing `.ts` file with no record is
removed by the walk, while an untracked file without the marker
survives. -/
theorem claim_C4_orphan_cleanup_witness :
    (⟨"/out/planted.ts", ["// Auto-generated by Quickwire", "junk"]⟩ : FsFile) ∉
      walkAndCleanup ["/out/real.ts"]
        [⟨"/out/planted.ts", ["// Auto-generated by Quickwire", "junk"]⟩,
         ⟨"/out/hand-written.ts", ["export const x = 1;"]⟩] ∧
    (⟨"/out/hand-written.ts", ["export const x = 1;"]⟩ : FsFile) ∈
      walkAndCleanup ["/out/real.ts"]
        [⟨"/out/planted.ts", ["// Auto-generated by Quickwire", "junk"]⟩,
         ⟨"/out/hand-written.ts", ["export const x = 1;"]⟩] := by
  constructor
  · exact (claim_C4_orphan_cleanup ["/out/real.ts"] _ _ (by simp)).1
      (by decide) (by decide) (by decide)
  · exact (claim_C4_orphan_cleanup ["/out/real.ts"] _ _ (by simp)).2
      (by decide)

/-- C9: at every invocation of a generated route handler, a thrown value
is caught and answered as `\x7b error: message \x7d` with status 500 —
the message being the thrown Error's message, or the fixed fallback for
non-Error values — the handler never propagates the exception (it is a
total function of the call outcome), and a non-error result is serialized
as JSON with `undefined` collapsed to `null`. -/
theorem claim_C9_handler_error_handling (call : CallOutcome) :
    (∀ m : String, call = Except.error (ThrownValue.errorObj m) →
      runGeneratedHandler call =
        ⟨JsValue.obj [("error", JsValue.str m)], 500⟩) ∧
    (∀ v : JsValue, call = Except.error (ThrownValue.nonError v) →
      runGeneratedHandler call =
        ⟨JsValue.obj [("error", JsValue.str "Internal server error")], 500⟩) ∧
    ((runGeneratedHandler call).status = 200 ∨
      (runGeneratedHandler call).status = 500) ∧
    (call = Except.ok JsValue.undef →
      runGeneratedHandler call = ⟨JsValue.nullv, 200⟩) ∧
    (∀ v : JsValue, v ≠ JsValue.undef → v ≠ JsValue.nullv →
      call = Except.ok v → runGeneratedHandler call = ⟨v, 200⟩) := by
  refine ⟨fun m h => by rw [h]; rfl,
          fun v h => by rw [h]; rfl,
          ?_,
          fun h => by rw [h]; rfl,
          fun v hu hn h => ?_⟩
  · cases call with
    | ok v => exact Or.inl rfl
    | error e => exact Or.inr rfl
  · rw [h]
    cases v with
    | undef => exact absurd rfl hu
    | nullv => exact absurd rfl hn
    | boolean b => rfl
    | str s => rfl
    | num n => rfl
    | obj fields => rfl

/-- Witness for C9: a handler whose wrapped function throws
`Error("boom")` answers `\x7b error: "boom" \x7d` at 500, and one whose
function returns the string `"ok"` answers that value at 200. -/
theorem claim_C9_handler_error_handling_witness :
    runGeneratedHandler (Except.error (ThrownValue.errorObj "boom")) =
      ⟨JsValue.obj [("error", JsValue.str "boom")], 500⟩ ∧
    runGeneratedHandler (Except.ok (JsValue.str "ok")) =
      ⟨JsValue.str "ok", 200⟩ := by
  constructor
  · exact (claim_C9_handler_error_handling
      (Except.error (ThrownValue.errorObj "boom"))).1 "boom" rfl
  · exact (claim_C9_handler_error_handling
      (Except.ok (JsValue.str "ok"))).2.2.2.2 (JsValue.str "ok")
      (by intro h; cases h) (by intro h; cases h) rfl

/-- C5 counterexample: on the input "\x7b a: string | number \x7d", whose
every `|` lies inside braces, the schema mapper returns a Union (`oneOf`)
of the two malformed split fragments, not an Object schema — the union
check fires on any `|` occurrence, nesting notwithstanding. -/
theorem claim_C5_counterexample :
    parseTypeToSchema 100 "\x7b a: string | number \x7d" =
      Schema.oneOf [Schema.custom "Custom type: \x7b a: string",
                    Schema.custom "Custom type: number \x7d"] ∧
    isUnionSchema (parseTypeToSchema 100 "\x7b a: string | number \x7d") = true ∧
    isObjectSchema (parseTypeToSchema 100 "\x7b a: string | number \x7d") = false :=
  ⟨rfl, rfl, rfl⟩

/-- C5 amended: the schema mapper splits on every occurrence of `|`,
whether or not it lies inside brace/bracket nesting: whenever the trimmed
expression fails all earlier guards (primitive keywords, `File`, `Blob`,
`FormData`, `[]`-array, `Array<...>`, `Promise<...>`) and contains `|`
anywhere, the result is the Union of the schemas of the naive split
parts; in particular "\x7b a: string | number \x7d" yields a Union of two
opaque fragments, not an Object. -/
theorem claim_C5_amended (fuel : Nat) (typeStr : String)
    (hs : (jsTrim typeStr == "string") = false)
    (hn : (jsTrim typeStr == "number") = false)
    (hb : (jsTrim typeStr == "boolean") = false)
    (ha : (jsTrim typeStr == "any") = false)
    (hu : (jsTrim typeStr == "unknown") = false)
    (hv : (jsTrim typeStr == "void") = false)
    (hfi : (jsTrim typeStr == "File") = false)
    (hbl : (jsTrim typeStr == "Blob") = false)
    (hfd : (jsTrim typeStr == "FormData") = false)
    (harr : jsEndsWith (jsTrim typeStr) "[]" = false)
    (hag : arrayGenericInner (jsTrim typeStr) = none)
    (hpr : promiseInner (jsTrim typeStr) = none)
    (hbar : jsContainsChar (jsTrim typeStr) '|' = true) :
    parseTypeToSchema (fuel + 1) typeStr =
      Schema.oneOf (((jsSplitOn (jsTrim typeStr) '|').map jsTrim).map
        (fun t => parseTypeToSchema fuel t)) := by
  rw [parseTypeToSchema]
  simp only [hs, hn, hb, ha, hu, hv, hfi, hbl, hfd, harr, hag, hpr, hbar,
    Bool.false_eq_true, if_false, if_true]

/-- Witness for the amended C5, at the claim's concrete input: all guard
hypotheses hold for "\x7b a: string | number \x7d" and the mapper indeed
produces the naive-split Union. -/
theorem claim_C5_amended_witness :
    parseTypeToSchema 100 "\x7b a: string | number \x7d" =
      Schema.oneOf (((jsSplitOn (jsTrim "\x7b a: string | number \x7d") '|').map jsTrim).map
        (fun t => parseTypeToSchema 99 t)) :=
  claim_C5_amended 99 "\x7b a: string | number \x7d"
    (by decide) (by decide) (by decide) (by decide) (by decide) (by decide)
    (by decide) (by decide) (by decide) (by decide) (by decide) (by decide)
    (by decide)

/-- C6: the schema mapper on the exact input
"\x7b a: string; b?: number[] \x7d" yields an Object schema whose
property `a` is Primitive(string) and appears in the required-keys list,
and whose property `b` is Array(Primitive(number)) and does not. -/
theorem claim_C6_schema_roundtrip :
    parseTypeToSchema 100 "\x7b a: string; b?: number[] \x7d" =
      Schema.obj [("a", Schema.primitive "string"),
                  ("b", Schema.arr (Schema.primitive "number"))] ["a"] :=
  rfl

/-- C7: a cache entry is returned by get exactly when the file's current
mtime equals the mtime recorded at insertion; a change or delete
notification evicts the entry immediately regardless of timestamps; and
for a file whose mtime changed between insertion and lookup, the lookup
misses, so the prior descriptor set is not reused. -/
theorem claim_C7_cache_validity :
    (∀ (stat : String → Option Nat) (cache : List (String × CacheEntry))
        (p : String) (e : ModuleExports),
      getCachedExports stat cache p = some e ↔
        mapGet cache p = some ⟨getFileMtime stat p, e⟩) ∧
    (∀ (stat : String → Option Nat) (st : WatcherState) (p : String),
      getCachedExports stat (markFileChanged st p).fileCache p = none ∧
      getCachedExports stat (markFileDeleted st p).fileCache p = none) ∧
    (∀ (stat₀ stat₁ : String → Option Nat) (cache : List (String × CacheEntry))
        (p : String) (e : ModuleExports),
      getFileMtime stat₁ p ≠ getFileMtime stat₀ p →
      getCachedExports stat₁ (setCachedExports stat₀ cache p e) p = none) := by
  refine ⟨?_, ?_, ?_⟩
  · intro stat cache p e
    rw [getCachedExports]
    cases hget : mapGet cache p with
    | none => simp
    | some cached =>
      cases cached with
      | mk m ex =>
        by_cases hm : m = getFileMtime stat p
        · subst hm
          simp
        · have hb : (m == getFileMtime stat p) = false := beq_eq_false_iff_ne.mpr hm
          simp only [hb, if_false, Bool.false_eq_true]
          constructor
          · intro h; cases h
          · intro h
            simp only [Option.some.injEq, CacheEntry.mk.injEq] at h
            exact absurd h.1 hm
  · intro stat st p
    constructor
    · rw [getCachedExports, markFileChanged]
      simp [mapGet_mapDelete_self]
    · rw [getCachedExports, markFileDeleted]
      simp [mapGet_mapDelete_self]
  · intro stat₀ stat₁ cache p e hne
    rw [getCachedExports, setCachedExports]
    rw [mapGet_mapSet_self]
    have hb : (getFileMtime stat₀ p == getFileMtime stat₁ p) = false :=
      beq_eq_false_iff_ne.mpr (fun h => hne h.symm)
    simp [hb]

/-- Witness for C7: inserting under mtime 5 and probing under mtime 7
misses; a change notification evicts a live entry. -/
theorem claim_C7_cache_validity_witness :
    getCachedExports (fun _ => some 7)
      (setCachedExports (fun _ => some 5) [] "f.ts" ⟨[], [], []⟩) "f.ts" = none ∧
    getCachedExports (fun _ => some 5)
      (markFileChanged ⟨[], [], [("f.ts", ⟨5, ⟨[], [], []⟩⟩)]⟩ "f.ts").fileCache
      "f.ts" = none := by
  constructor
  · exact claim_C7_cache_validity.2.2 (fun _ => some 5) (fun _ => some 7) []
      "f.ts" ⟨[], [], []⟩ (by decide)
  · exact (claim_C7_cache_validity.2.1 (fun _ => some 5)
      ⟨[], [], [("f.ts", ⟨5, ⟨[], [], []⟩⟩)]⟩ "f.ts").1

/-- C8 counterexample: with a single dirty file, a fresh last scan and a
non-empty cache, the code performs a full regeneration although the
claimed rule (empty cache / stale window / more than half the cap dirty)
does not fire; conversely with an empty cache and nothing dirty inside
the staleness window, the code does not regenerate although the claimed
rule fires. -/
theorem claim_C8_counterexample :
    shouldRegenerateEverything ⟨1000, 1000, 1, 0, 3, 300000, 1000⟩ = true ∧
    claimedRegenRule ⟨1000, 1000, 1, 0, 3, 300000, 1000⟩ = false ∧
    shouldRegenerateEverything ⟨1000, 1000, 0, 0, 0, 300000, 1000⟩ = false ∧
    claimedRegenRule ⟨1000, 1000, 0, 0, 0, 300000, 1000⟩ = true := by
  decide

/-- C8 amended: a full regeneration is triggered precisely when at least
one file is marked changed or deleted, or the staleness window has
elapsed since the last full scan, or the dirty count exceeds half the
max-files cap (a condition subsumed by the first); the emptiness of the
exports cache is never consulted. -/
theorem claim_C8_amended (i : RegenInput) :
    shouldRegenerateEverything i = true ↔
      (0 < i.changedCount ∨ 0 < i.deletedCount ∨
       i.cacheExpiryMs < i.now - i.lastFullScan ∨
       i.maxFilesToProcess < 2 * i.changedCount) := by
  rw [shouldRegenerateEverything]
  simp only [Bool.or_eq_true, bne_iff_ne, ne_eq, Nat.blt_eq]
  omega

/-- C10: the mtime probe returns 0 when stat fails, so an entry inserted
for a nonexistent path and probed while the path still does not exist is
always considered valid: get returns the stored exports instead of a
miss. -/
theorem claim_C10_nonexistent_file_cache (stat₀ stat₁ : String → Option Nat)
    (cache : List (String × CacheEntry)) (p : String) (e : ModuleExports)
    (h₀ : stat₀ p = none) (h₁ : stat₁ p = none) :
    getFileMtime stat₀ p = 0 ∧
    getCachedExports stat₁ (setCachedExports stat₀ cache p e) p = some e := by
  have hm₀ : getFileMtime stat₀ p = 0 := by rw [getFileMtime, h₀]; rfl
  have hm₁ : getFileMtime stat₁ p = 0 := by rw [getFileMtime, h₁]; rfl
  refine ⟨hm₀, ?_⟩
  rw [getCachedExports, setCachedExports, mapGet_mapSet_self, hm₀, hm₁]
  rfl

/-- Witness for C10: a concrete never-existing path cached and re-probed
yields the stale exports. -/
theorem claim_C10_nonexistent_file_cache_witness :
    getCachedExports (fun _ => none)
      (setCachedExports (fun _ => none) [] "ghost.ts" ⟨[], [], []⟩)
      "ghost.ts" = some ⟨[], [], []⟩ :=
  (claim_C10_nonexistent_file_cache (fun _ => none) (fun _ => none) []
    "ghost.ts" ⟨[], [], []⟩ rfl rfl).2

end Quickwire
